import Mathlib

/-!
# Verification of the DoctorAi symptom-extraction and disease-scoring core

Shallow embedding of `predictor.py` (function `predict_disease`) and
`utils.py` (functions `preprocess_symptoms`, `extract_symptoms_from_text`,
`get_disease_info`), followed by theorems settling the spec claims.

Modelling conventions:
* Python `dict`s are insertion-ordered association lists (faithful to
  CPython 3.7+ dict semantics used by `disease_score`).
* Python `set`s are modelled as duplicate-free lists built by
  insert-if-absent; only membership of these sets is claimed (Python set
  iteration order is hash-dependent and never relied upon by the claims).
* Python floats are modelled as exact rationals; `round(x, 1)` is modelled
  as round-half-to-even at one decimal, matching CPython `round`.
* The reference tables (`symptom_disease_map`, `all_symptoms`,
  `symptom_synonyms`, `diseases_data`), the NLTK lemmatizer and the NLTK
  stop-word list live outside the repository's source; they are taken as
  parameters.  On punctuation-stripped text NLTK word tokenization is
  whitespace splitting, which is how it is modelled.
-/

namespace DoctorAi

/-- CPython `round(q, 1)` in tenths: the integer nearest `10 * q`, halves to
even.  Computed on the numerator/denominator representation (for a rational
`q = n / d` with `d > 0`, `⌊10 * q⌋` is the floor division `10 * n / d` and
the fractional part compares to `1/2` as `2 * (10 * n % d)` compares to
`d`), so that it evaluates by kernel reduction. -/
def roundTenths (q : ℚ) : ℤ :=
  if 2 * ((10 * q.num) % (q.den : ℤ)) < (q.den : ℤ) then (10 * q.num) / (q.den : ℤ)
  else if (q.den : ℤ) < 2 * ((10 * q.num) % (q.den : ℤ)) then (10 * q.num) / (q.den : ℤ) + 1
  else if ((10 * q.num) / (q.den : ℤ)) % 2 = 0 then (10 * q.num) / (q.den : ℤ)
  else (10 * q.num) / (q.den : ℤ) + 1

/-- CPython `round(q, 1)`: one-decimal rounding, half to even. -/
def pyRound1 (q : ℚ) : ℚ :=
  Rat.divInt (roundTenths q) 10

/-- `round((score / max_score) * 100, 1)`: the exact rational
`score / max_score * 100` is `score * 100 / max_score`. -/
def probOf (score max_score : Nat) : ℚ :=
  pyRound1 (Rat.divInt ((score : ℤ) * 100) (max_score : ℤ))

/-- Python list slice `xs[:n]` for an arbitrary integer `n`: a nonnegative
`n` keeps the first `n` elements; a negative `n` drops the last `|n|`. -/
def pyTake (n : ℤ) (xs : List α) : List α :=
  if 0 ≤ n then xs.take n.toNat else xs.take (xs.length - (-n).toNat)

/-- Python `d.get(k, None)` on an association list with distinct keys. -/
def dictGet (d : List (String × α)) (k : String) : Option α :=
  match d with
  | [] => none
  | (k₀, v) :: rest => if k₀ = k then some v else dictGet rest k

/-- Insert-if-absent: `s.add(x)` on a Python set modelled as a list. -/
def pyInsert (acc : List String) (x : String) : List String :=
  if x ∈ acc then acc else acc ++ [x]

/-- `s.update(l)` / seeding a set from a list, element by element. -/
def pyInsertAll (acc : List String) (l : List String) : List String :=
  l.foldl pyInsert acc

/-! ## `predictor.py` — `predict_disease`

```
disease_score = {}
for symptom in symptoms:
    if symptom in symptom_disease_map:
        for disease in symptom_disease_map[symptom]:
            if disease not in disease_score:
                disease_score[disease] = 0
            disease_score[disease] += 1
if not disease_score:
    return []
max_score = max(disease_score.values())
results = [(disease, round((score / max_score) * 100, 1))
           for disease, score in disease_score.items()]
results.sort(key=lambda x: x[1], reverse=True)
return results[:top_n]
```
-/

/-- One `disease_score[disease] += 1` step (creating the key at the end of
the insertion-ordered dict when absent, as Python does). -/
def bump (d : List (String × Nat)) (disease : String) : List (String × Nat) :=
  match d with
  | [] => [(disease, 1)]
  | (k, v) :: rest => if k = disease then (k, v + 1) :: rest else (k, v) :: bump rest disease

/-- Process one user symptom: bump every disease associated with it, in
table order; unknown symptoms contribute nothing. -/
def scoreSymptom (symptom_disease_map : List (String × List String))
    (d : List (String × Nat)) (symptom : String) : List (String × Nat) :=
  match dictGet symptom_disease_map symptom with
  | some diseases => diseases.foldl bump d
  | none => d

/-- The accumulated `disease_score` dict after the main loop. -/
def diseaseScores (symptom_disease_map : List (String × List String))
    (symptoms : List String) : List (String × Nat) :=
  symptoms.foldl (scoreSymptom symptom_disease_map) []

/-- `max(disease_score.values())`; the caller only uses it on a nonempty
dict (Python `max` raises on an empty one, but the code guards that). -/
def maxScore (d : List (String × Nat)) : Nat :=
  (d.map Prod.snd).foldl max 0

/-- The `results` list comprehension. -/
def scoreResults (d : List (String × Nat)) : List (String × ℚ) :=
  d.map (fun kv => (kv.1, probOf kv.2 (maxScore d)))

/-- The sort key `reverse=True` on the probability component: descending. -/
def probGE (x y : String × ℚ) : Prop := y.2 ≤ x.2

instance : DecidableRel probGE := fun x y => inferInstanceAs (Decidable (y.2 ≤ x.2))

instance : IsTotal (String × ℚ) probGE := ⟨fun x y => le_total y.2 x.2⟩

instance : IsTrans (String × ℚ) probGE := ⟨fun _ _ _ h h₂ => le_trans h₂ h⟩

/-- The full descending ranking before truncation (`results` after
`results.sort(key=..., reverse=True)`; Python list sort is stable, as is
insertion sort with this relation). -/
def rankedResults (symptom_disease_map : List (String × List String))
    (symptoms : List String) : List (String × ℚ) :=
  List.insertionSort probGE (scoreResults (diseaseScores symptom_disease_map symptoms))

/-- `predict_disease(symptoms, top_n)` from `predictor.py` (exposed to the
spec as `score_diseases`); the Python default for `top_n` is 3. -/
def predict_disease (symptom_disease_map : List (String × List String))
    (symptoms : List String) (top_n : ℤ) : List (String × ℚ) :=
  if diseaseScores symptom_disease_map symptoms = [] then []
  else pyTake top_n (rankedResults symptom_disease_map symptoms)

/-! ## `utils.py` — `extract_symptoms_from_text` and `preprocess_symptoms`

```
text = text.lower()
text = re.sub(r'[^\w\s]', ' ', text)
words = nltk.word_tokenize(text)
words = [lemmatizer.lemmatize(word) for word in words if word not in stop_words]
recognized_symptoms = set()
for word in words:
    for symptom in all_symptoms:
        if word == symptom.lower() or word in symptom_synonyms.get(symptom, []):
            recognized_symptoms.add(symptom)
            break
for i in range(len(words)):
    for j in range(i+1, min(i+5, len(words)+1)):
        phrase = ' '.join(words[i:j])
        for symptom in all_symptoms:
            if phrase == symptom.lower() or phrase in symptom_synonyms.get(symptom, []):
                recognized_symptoms.add(symptom)
                break
return recognized_symptoms
```
-/

/-- `text.lower()`, character by character (the inputs of interest are
ASCII). -/
def strLower (s : String) : String :=
  String.mk (s.data.map Char.toLower)

/-- `re.sub(r'[^\w\s]', ' ', text)`: every character that is neither a word
character (`[A-Za-z0-9_]`) nor whitespace becomes a single space. -/
def stripPunct (s : String) : String :=
  String.mk (s.data.map (fun c => if c.isAlphanum || c = '_' || c.isWhitespace then c else ' '))

/-- Split a character list into maximal whitespace-free runs; `cur` holds
the (reversed) run being read. -/
def splitWs (cs : List Char) (cur : List Char) : List String :=
  match cs with
  | [] => if cur.isEmpty then [] else [String.mk cur.reverse]
  | c :: rest =>
    if c.isWhitespace then
      if cur.isEmpty then splitWs rest [] else String.mk cur.reverse :: splitWs rest []
    else splitWs rest (c :: cur)

/-- `nltk.word_tokenize` applied to lowercased, punctuation-stripped text:
on such text (word characters and whitespace only) it is exactly the
maximal whitespace-separated runs. -/
def pyTokens (text : String) : List String :=
  splitWs (stripPunct (strLower text)).data []

/-- `' '.join(ws)`. -/
def joinWords (ws : List String) : String :=
  String.mk (List.intercalate [' '] (ws.map String.data))

/-- The filtered, lemmatized word list
`[lemmatizer.lemmatize(word) for word in words if word not in stop_words]`. -/
def procWords (lemmatize : String → String) (stop_words : List String)
    (text : String) : List String :=
  ((pyTokens text).filter (fun w => ¬ w ∈ stop_words)).map lemmatize

/-- The match test of both scanning loops:
`phrase == symptom.lower() or phrase in symptom_synonyms.get(symptom, [])`.
The canonical-name side is lowercased; the synonym side is compared
verbatim. -/
def matchesSymptom (symptom_synonyms : List (String × List String))
    (phrase symptom : String) : Bool :=
  (phrase = strLower symptom : Bool) || ((dictGet symptom_synonyms symptom).getD []).contains phrase

/-- `for symptom in all_symptoms: if ...: break` — the first canonical
symptom matched by a phrase, if any. -/
def firstMatch (all_symptoms : List String)
    (symptom_synonyms : List (String × List String)) (phrase : String) : Option String :=
  all_symptoms.find? (matchesSymptom symptom_synonyms phrase)

/-- Process one phrase against the recognized set. -/
def addMatch (all_symptoms : List String)
    (symptom_synonyms : List (String × List String)) (acc : List String)
    (phrase : String) : List String :=
  match firstMatch all_symptoms symptom_synonyms phrase with
  | some s => pyInsert acc s
  | none => acc

/-- The phrases `' '.join(words[i:j])` scanned by the multi-word loop, in
loop order: `i` over `range(len(words))`, `j` over
`range(i+lo, min(i+5, len(words)+1))`.  The code runs it with `lo = 1`
(so length-1 windows are included); the spec describes `lo = 2`. -/
def windowPhrases (lo : Nat) (words : List String) : List String :=
  (List.range words.length).flatMap (fun i =>
    (List.range' (i + lo) (min (i + 5) (words.length + 1) - (i + lo))).map (fun j =>
      joinWords ((words.drop i).take (j - i))))

/-- `extract_symptoms_from_text(text)` from `utils.py`: single-word pass,
then the multi-word pass over windows of 1–4 filtered tokens. -/
def extract_symptoms_from_text (lemmatize : String → String)
    (stop_words all_symptoms : List String)
    (symptom_synonyms : List (String × List String)) (text : String) : List String :=
  let words := procWords lemmatize stop_words text
  let singles := words.foldl (addMatch all_symptoms symptom_synonyms) []
  (windowPhrases 1 words).foldl (addMatch all_symptoms symptom_synonyms) singles

/-- The extraction algorithm exactly as the spec words it (§4.1 steps 2d–2e):
a single-word pass, then multi-word windows of 2–4 tokens only.  This is the
second definition of a refinement claim; it deliberately follows the spec,
not the code. -/
def extractSpecAlgorithm (lemmatize : String → String)
    (stop_words all_symptoms : List String)
    (symptom_synonyms : List (String × List String)) (text : String) : List String :=
  let words := procWords lemmatize stop_words text
  let singles := words.foldl (addMatch all_symptoms symptom_synonyms) []
  (windowPhrases 2 words).foldl (addMatch all_symptoms symptom_synonyms) singles

/-- `preprocess_symptoms(selected_symptoms, additional_symptoms_text)` from
`utils.py` (exposed to the spec as `extract_symptoms`):
`set(selected)`, then `update` with the text extraction when the text is
truthy (nonempty), then `list(...)`. -/
def preprocess_symptoms (lemmatize : String → String)
    (stop_words all_symptoms : List String)
    (symptom_synonyms : List (String × List String))
    (selected_symptoms : List String) (additional_symptoms_text : String) : List String :=
  let processed := pyInsertAll [] selected_symptoms
  if additional_symptoms_text = "" then processed
  else pyInsertAll processed
    (extract_symptoms_from_text lemmatize stop_words all_symptoms symptom_synonyms
      additional_symptoms_text)

/-! ## `utils.py` — `get_disease_info` -/

/-- `get_disease_info(disease_name)` from `utils.py`:
`diseases_data.get(disease_name, None)`.  The contents of `diseases_data`
are reference data outside the source; the table is a parameter. -/
def get_disease_info (diseases_data : List (String × α)) (disease_name : String) : Option α :=
  dictGet diseases_data disease_name

/-! ## Membership lemmas for the set model -/

theorem mem_pyInsert {acc : List String} {x y : String} :
    x ∈ pyInsert acc y ↔ x ∈ acc ∨ x = y := by
  unfold pyInsert
  by_cases h : y ∈ acc
  · simp only [if_pos h]
    constructor
    · exact Or.inl
    · rintro (hx | rfl)
      · exact hx
      · exact h
  · simp [if_neg h, List.mem_append]

theorem mem_pyInsertAll {l : List String} : ∀ {acc : List String} {x : String},
    x ∈ pyInsertAll acc l ↔ x ∈ acc ∨ x ∈ l := by
  induction l with
  | nil => simp [pyInsertAll]
  | cons a t ih =>
    intro acc x
    show x ∈ pyInsertAll (pyInsert acc a) t ↔ _
    rw [ih, mem_pyInsert]
    simp only [List.mem_cons]
    tauto

theorem mem_addMatch {all_symptoms : List String}
    {symptom_synonyms : List (String × List String)} {acc : List String} {p x : String} :
    x ∈ addMatch all_symptoms symptom_synonyms acc p ↔
      x ∈ acc ∨ firstMatch all_symptoms symptom_synonyms p = some x := by
  unfold addMatch
  cases h : firstMatch all_symptoms symptom_synonyms p with
  | none => simp
  | some s =>
    rw [mem_pyInsert]
    simp only [Option.some.injEq]
    constructor
    · rintro (hx | rfl)
      · exact Or.inl hx
      · exact Or.inr rfl
    · rintro (hx | rfl)
      · exact Or.inl hx
      · exact Or.inr rfl

theorem mem_foldl_addMatch {all_symptoms : List String}
    {symptom_synonyms : List (String × List String)} {L : List String} :
    ∀ {init : List String} {x : String},
    x ∈ L.foldl (addMatch all_symptoms symptom_synonyms) init ↔
      x ∈ init ∨ ∃ p ∈ L, firstMatch all_symptoms symptom_synonyms p = some x := by
  induction L with
  | nil => simp
  | cons a t ih =>
    intro init x
    rw [List.foldl_cons, ih, mem_addMatch]
    simp only [List.mem_cons]
    constructor
    · rintro ((hx | hm) | ⟨p, hp, hm⟩)
      · exact Or.inl hx
      · exact Or.inr ⟨a, Or.inl rfl, hm⟩
      · exact Or.inr ⟨p, Or.inr hp, hm⟩
    · rintro (hx | ⟨p, rfl | hp, hm⟩)
      · exact Or.inl (Or.inl hx)
      · exact Or.inl (Or.inr hm)
      · exact Or.inr ⟨p, hp, hm⟩

theorem firstMatch_mem {all_symptoms : List String}
    {symptom_synonyms : List (String × List String)} {p s : String}
    (h : firstMatch all_symptoms symptom_synonyms p = some s) : s ∈ all_symptoms :=
  List.mem_of_find?_eq_some h

/-! ## Window lemmas for the multi-word scan -/

theorem joinWords_singleton (w : String) : joinWords [w] = w := by
  show String.mk (List.intercalate [' '] [w.data]) = w
  rw [List.intercalate]
  simp

theorem mem_windowPhrases {lo : Nat} {words : List String} {p : String} :
    p ∈ windowPhrases lo words ↔
      ∃ i j, i < words.length ∧ i + lo ≤ j ∧ j < min (i + 5) (words.length + 1) ∧
        p = joinWords ((words.drop i).take (j - i)) := by
  simp only [windowPhrases, List.mem_flatMap, List.mem_range, List.mem_map, List.mem_range'_1]
  constructor
  · rintro ⟨i, hi, j, ⟨h1, h2⟩, rfl⟩
    exact ⟨i, j, hi, h1, by omega, rfl⟩
  · rintro ⟨i, j, hi, h1, h2, rfl⟩
    exact ⟨i, hi, j, ⟨h1, by omega⟩, rfl⟩

theorem joinWords_window_one {words : List String} {i : Nat} (h : i < words.length) :
    joinWords ((words.drop i).take 1) = words[i] := by
  have h2 : (words.drop i).take 1 = [words[i]] := by
    rw [List.drop_eq_getElem_cons h, List.take_succ_cons, List.take_zero]
  rw [h2, joinWords_singleton]

theorem mem_windowPhrases_one {words : List String} {p : String} :
    p ∈ windowPhrases 1 words ↔ p ∈ words ∨ p ∈ windowPhrases 2 words := by
  rw [mem_windowPhrases, mem_windowPhrases]
  constructor
  · rintro ⟨i, j, hi, hlo, hub, rfl⟩
    rcases Nat.eq_or_lt_of_le hlo with hj | hj
    · left
      have h1 : j - i = 1 := by omega
      rw [h1, joinWords_window_one hi]
      exact List.mem_iff_getElem.mpr ⟨i, hi, rfl⟩
    · right
      exact ⟨i, j, hi, by omega, hub, rfl⟩
  · rintro (hp | ⟨i, j, hi, hlo, hub, rfl⟩)
    · obtain ⟨i, hi, rfl⟩ := List.mem_iff_getElem.mp hp
      refine ⟨i, i + 1, hi, le_refl _, by omega, ?_⟩
      have h1 : i + 1 - i = 1 := by omega
      rw [h1, joinWords_window_one hi]
    · exact ⟨i, j, hi, by omega, hub, rfl⟩

/-! ## Accumulator and rounding lemmas for the scorer -/

theorem bump_pos {d : List (String × Nat)} {k : String} (h : ∀ kv ∈ d, 1 ≤ kv.2) :
    ∀ kv ∈ bump d k, 1 ≤ kv.2 := by
  induction d with
  | nil =>
    intro kv hkv
    simp only [bump, List.mem_singleton] at hkv
    subst hkv
    exact le_refl 1
  | cons a t ih =>
    intro kv hkv
    obtain ⟨k₀, v⟩ := a
    simp only [bump] at hkv
    by_cases hk : k₀ = k
    · rw [if_pos hk] at hkv
      rcases List.mem_cons.mp hkv with rfl | hm
      · exact Nat.le_add_left 1 v
      · exact h kv (List.mem_cons_of_mem _ hm)
    · rw [if_neg hk] at hkv
      rcases List.mem_cons.mp hkv with rfl | hm
      · exact h _ (List.mem_cons_self _ _)
      · exact ih (fun kv h₂ => h kv (List.mem_cons_of_mem _ h₂)) kv hm

theorem foldl_bump_pos {L : List String} : ∀ {d : List (String × Nat)},
    (∀ kv ∈ d, 1 ≤ kv.2) → ∀ kv ∈ L.foldl bump d, 1 ≤ kv.2 := by
  induction L with
  | nil => exact fun h => h
  | cons a t ih => exact fun h => ih (bump_pos h)

theorem scoreSymptom_pos {m : List (String × List String)} {d : List (String × Nat)}
    {symptom : String} (h : ∀ kv ∈ d, 1 ≤ kv.2) :
    ∀ kv ∈ scoreSymptom m d symptom, 1 ≤ kv.2 := by
  unfold scoreSymptom
  cases dictGet m symptom with
  | none => exact h
  | some diseases => exact foldl_bump_pos h

theorem diseaseScores_pos {m : List (String × List String)} {symptoms : List String} :
    ∀ kv ∈ diseaseScores m symptoms, 1 ≤ kv.2 := by
  suffices h : ∀ {d : List (String × Nat)}, (∀ kv ∈ d, 1 ≤ kv.2) →
      ∀ kv ∈ symptoms.foldl (scoreSymptom m) d, 1 ≤ kv.2 by
    exact h (by simp)
  induction symptoms with
  | nil => exact fun h => h
  | cons a t ih => exact fun h => ih (scoreSymptom_pos h)

theorem le_foldl_max {l : List Nat} : ∀ {b : Nat}, b ≤ l.foldl max b := by
  induction l with
  | nil => exact le_refl _
  | cons a t ih => exact fun {b} => le_trans (Nat.le_max_left b a) ih

theorem mem_le_foldl_max {l : List Nat} {a : Nat} (h : a ∈ l) : ∀ {b : Nat}, a ≤ l.foldl max b := by
  induction l with
  | nil => cases h
  | cons c t ih =>
    intro b
    rcases List.mem_cons.mp h with rfl | hm
    · exact le_trans (Nat.le_max_right b a) le_foldl_max
    · exact ih hm

theorem snd_le_maxScore {d : List (String × Nat)} {kv : String × Nat} (h : kv ∈ d) :
    kv.2 ≤ maxScore d :=
  mem_le_foldl_max (List.mem_map.mpr ⟨kv, h, rfl⟩)

theorem maxScore_pos {d : List (String × Nat)} (hne : d ≠ [])
    (hpos : ∀ kv ∈ d, 1 ≤ kv.2) : 1 ≤ maxScore d := by
  obtain ⟨kv, t, rfl⟩ : ∃ kv t, d = kv :: t := by
    cases d with
    | nil => exact absurd rfl hne
    | cons kv t => exact ⟨kv, t, rfl⟩
  exact le_trans (hpos kv (List.mem_cons_self _ _)) (snd_le_maxScore (List.mem_cons_self _ _))

theorem roundTenths_nonneg {q : ℚ} (h : 0 ≤ q) : 0 ≤ roundTenths q := by
  have hnum : (0 : ℤ) ≤ q.num := Rat.num_nonneg.mpr h
  have hf : (0 : ℤ) ≤ (10 * q.num) / (q.den : ℤ) :=
    Int.ediv_nonneg (by omega) (by exact_mod_cast Nat.zero_le q.den)
  unfold roundTenths
  split
  · exact hf
  split
  · omega
  split
  · exact hf
  · omega

theorem roundTenths_le_thousand {q : ℚ} (h : q ≤ 100) : roundTenths q ≤ 1000 := by
  have hD : (0 : ℤ) < (q.den : ℤ) := by exact_mod_cast q.den_pos
  have hnum : q.num ≤ 100 * (q.den : ℤ) := by
    have := Rat.le_def.mp h
    simpa using this
  have ht : 10 * q.num ≤ 1000 * (q.den : ℤ) := by omega
  have hf : (10 * q.num) / (q.den : ℤ) ≤ 1000 := by
    calc (10 * q.num) / (q.den : ℤ) ≤ (1000 * (q.den : ℤ)) / (q.den : ℤ) :=
          Int.ediv_le_ediv hD ht
      _ = 1000 := Int.mul_ediv_cancel 1000 (ne_of_gt hD)
  have hdm : (q.den : ℤ) * ((10 * q.num) / (q.den : ℤ)) + (10 * q.num) % (q.den : ℤ) =
      10 * q.num := Int.ediv_add_emod _ _
  have hr0 : (0 : ℤ) ≤ (10 * q.num) % (q.den : ℤ) := Int.emod_nonneg _ (ne_of_gt hD)
  have hup : (q.den : ℤ) ≤ 2 * ((10 * q.num) % (q.den : ℤ)) →
      (10 * q.num) / (q.den : ℤ) + 1 ≤ 1000 := by
    intro hhalf
    by_contra hc
    have hfe : (10 * q.num) / (q.den : ℤ) = 1000 := by omega
    rw [hfe] at hdm
    nlinarith
  unfold roundTenths
  split
  · exact hf
  split
  · exact hup (by omega)
  split
  · exact hf
  · exact hup (by omega)

theorem pyRound1_nonneg {q : ℚ} (h : 0 ≤ q) : 0 ≤ pyRound1 q := by
  unfold pyRound1
  exact Rat.divInt_nonneg (roundTenths_nonneg h) (by omega)

theorem pyRound1_le_hundred {q : ℚ} (h : q ≤ 100) : pyRound1 q ≤ 100 := by
  unfold pyRound1
  rw [Rat.divInt_eq_div]
  rw [div_le_iff₀ (by norm_num : (0:ℚ) < ((10:ℤ) : ℚ))]
  calc ((roundTenths q : ℤ) : ℚ) ≤ ((1000 : ℤ) : ℚ) := by
        exact_mod_cast roundTenths_le_thousand h
    _ = 100 * ((10:ℤ) : ℚ) := by norm_num

theorem probOf_eq (s m : Nat) :
    probOf s m = pyRound1 ((s : ℚ) / (m : ℚ) * 100) := by
  unfold probOf
  congr 1
  rw [Rat.divInt_eq_div, div_mul_eq_mul_div]
  push_cast
  rfl

theorem probOf_self {m : Nat} (hm : m ≠ 0) : probOf m m = 100 := by
  unfold probOf
  have hq : Rat.divInt ((m : ℤ) * 100) (m : ℤ) = (100 : ℚ) := by
    rw [Rat.divInt_eq_div]
    push_cast
    rw [mul_comm, mul_div_assoc, div_self (Nat.cast_ne_zero.mpr hm), mul_one]
  rw [hq]
  decide

theorem probOf_nonneg (s m : Nat) : 0 ≤ probOf s m := by
  unfold probOf
  exact pyRound1_nonneg (Rat.divInt_nonneg (by positivity) (by exact_mod_cast Nat.zero_le m))

theorem probOf_le_hundred {s m : Nat} (hm : 1 ≤ m) (hs : s ≤ m) : probOf s m ≤ 100 := by
  unfold probOf
  refine pyRound1_le_hundred ?_
  rw [Rat.divInt_eq_div]
  rw [div_le_iff₀ (by exact_mod_cast hm : (0:ℚ) < ((m : ℤ) : ℚ))]
  push_cast
  nlinarith [show ((s : ℚ)) ≤ ((m : ℚ)) from Nat.cast_le.mpr hs]

theorem probOf_tenths (s m : Nat) : ∃ z : ℤ, probOf s m = (z : ℚ) / 10 := by
  refine ⟨roundTenths (Rat.divInt ((s : ℤ) * 100) (m : ℤ)), ?_⟩
  unfold probOf pyRound1
  rw [Rat.divInt_eq_div]
  norm_num

theorem mem_predict {m : List (String × List String)} {symptoms : List String} {n : ℤ}
    {pair : String × ℚ} (h : pair ∈ predict_disease m symptoms n) :
    pair ∈ scoreResults (diseaseScores m symptoms) := by
  unfold predict_disease at h
  split at h
  · cases h
  · unfold pyTake at h
    have h₂ : pair ∈ rankedResults m symptoms := by
      split at h <;> exact List.mem_of_mem_take h
    exact (List.mem_insertionSort probGE).mp h₂

/-! ## The claims -/

/-- C1 counterexample: the claim quantifies over every `top_n`, but at
`top_n = -1` Python's slice `results[:-1]` drops the last entry instead of
truncating to at most `-1` elements: on the table `fever → flu` with input
`["fever"]` the result has length `0`, and `0 ≤ -1` is false. -/
theorem C1_counterexample :
    ¬ (((predict_disease [("fever", ["flu"])] ["fever"] (-1)).length : ℤ) ≤ -1) := by
  decide

/-- C1 (amended): for every association table, symptom list and `top_n`,
the output of `score_diseases` (`predict_disease`) is sorted non-increasing
by probability; and whenever `top_n ≥ 0` its length is at most `top_n`
(for negative `top_n` the Python slice returns all but the last `|top_n|`
ranked entries, which can be longer than `top_n`). -/
theorem C1_amended_sorted_truncated (symptom_disease_map : List (String × List String))
    (symptoms : List String) (top_n : ℤ) :
    List.Sorted probGE (predict_disease symptom_disease_map symptoms top_n) ∧
      (0 ≤ top_n →
        ((predict_disease symptom_disease_map symptoms top_n).length : ℤ) ≤ top_n) := by
  have hsorted : List.Sorted probGE (rankedResults symptom_disease_map symptoms) :=
    List.sorted_insertionSort probGE _
  constructor
  · unfold predict_disease
    split
    · exact List.sorted_nil
    · unfold pyTake
      split
      · exact hsorted.sublist (List.take_sublist _ _)
      · exact hsorted.sublist (List.take_sublist _ _)
  · intro hn
    unfold predict_disease
    split
    · simpa using hn
    · unfold pyTake
      rw [if_pos hn]
      calc (((rankedResults symptom_disease_map symptoms).take top_n.toNat).length : ℤ)
          ≤ (top_n.toNat : ℤ) := by exact_mod_cast List.length_take_le _ _
        _ = top_n := Int.toNat_of_nonneg hn

/-- Witness for the amended C1, at the table `fever → flu`, input
`["fever"]` and the default `top_n = 3`. -/
theorem C1_amended_witness :
    List.Sorted probGE (predict_disease [("fever", ["flu"])] ["fever"] 3) ∧
      ((predict_disease [("fever", ["flu"])] ["fever"] 3).length : ℤ) ≤ 3 :=
  ⟨(C1_amended_sorted_truncated [("fever", ["flu"])] ["fever"] 3).1,
   (C1_amended_sorted_truncated [("fever", ["flu"])] ["fever"] 3).2 (by decide)⟩

/-- C2: whenever at least one disease accumulates a count, `max_score ≥ 1`;
every returned pair carries the probability
`round((score / max_score) * 100, 1)` for that disease's accumulated
`score`, which lies in `[0, 100]` and has one decimal place; and every
disease whose accumulated count equals `max_score` gets probability
exactly `100.0`. -/
theorem C2_probability_normalization (symptom_disease_map : List (String × List String))
    (symptoms : List String) (top_n : ℤ)
    (h : diseaseScores symptom_disease_map symptoms ≠ []) :
    1 ≤ maxScore (diseaseScores symptom_disease_map symptoms) ∧
      (∀ pair ∈ predict_disease symptom_disease_map symptoms top_n,
        ∃ s : Nat, (pair.1, s) ∈ diseaseScores symptom_disease_map symptoms ∧
          pair.2 = pyRound1 ((s : ℚ) /
            ((maxScore (diseaseScores symptom_disease_map symptoms) : ℚ)) * 100) ∧
          0 ≤ pair.2 ∧ pair.2 ≤ 100 ∧ ∃ z : ℤ, pair.2 = (z : ℚ) / 10) ∧
      (∀ kv ∈ diseaseScores symptom_disease_map symptoms,
        kv.2 = maxScore (diseaseScores symptom_disease_map symptoms) →
          (kv.1, (100 : ℚ)) ∈ scoreResults (diseaseScores symptom_disease_map symptoms)) := by
  have hmax : 1 ≤ maxScore (diseaseScores symptom_disease_map symptoms) :=
    maxScore_pos h diseaseScores_pos
  refine ⟨hmax, ?_, ?_⟩
  · intro pair hp
    obtain ⟨kv, hkv, rfl⟩ := List.mem_map.mp (mem_predict hp)
    refine ⟨kv.2, by simpa using hkv, probOf_eq kv.2 _, probOf_nonneg kv.2 _,
      probOf_le_hundred hmax (snd_le_maxScore hkv), probOf_tenths kv.2 _⟩
  · intro kv hkv hkvmax
    refine List.mem_map.mpr ⟨kv, hkv, ?_⟩
    rw [hkvmax, probOf_self (by omega)]

/-- Witness for C2, at the worked example table from the spec. -/
theorem C2_witness :
    1 ≤ maxScore (diseaseScores [("fever", ["flu", "malaria"]), ("cough", ["flu", "cold"])]
        ["fever", "cough"]) ∧
      (∀ pair ∈ predict_disease [("fever", ["flu", "malaria"]), ("cough", ["flu", "cold"])]
          ["fever", "cough"] 3,
        ∃ s : Nat, (pair.1, s) ∈ diseaseScores
            [("fever", ["flu", "malaria"]), ("cough", ["flu", "cold"])] ["fever", "cough"] ∧
          pair.2 = pyRound1 ((s : ℚ) /
            ((maxScore (diseaseScores [("fever", ["flu", "malaria"]), ("cough", ["flu", "cold"])]
              ["fever", "cough"]) : ℚ)) * 100) ∧
          0 ≤ pair.2 ∧ pair.2 ≤ 100 ∧ ∃ z : ℤ, pair.2 = (z : ℚ) / 10) ∧
      (∀ kv ∈ diseaseScores [("fever", ["flu", "malaria"]), ("cough", ["flu", "cold"])]
          ["fever", "cough"],
        kv.2 = maxScore (diseaseScores [("fever", ["flu", "malaria"]), ("cough", ["flu", "cold"])]
            ["fever", "cough"]) →
          (kv.1, (100 : ℚ)) ∈ scoreResults (diseaseScores
            [("fever", ["flu", "malaria"]), ("cough", ["flu", "cold"])] ["fever", "cough"])) :=
  C2_probability_normalization [("fever", ["flu", "malaria"]), ("cough", ["flu", "cold"])]
    ["fever", "cough"] 3 (by decide)

/-- C3: on the association table `fever → {flu, malaria}`,
`cough → {flu, cold}`, the symptoms `fever, cough` yield flu at `100.0`
and malaria and cold at `50.0`; the two tied `50.0` entries appear in the
order their diseases were first encountered during accumulation (stable
sort): processing fever first puts malaria before cold, processing cough
first puts cold before malaria. -/
theorem C3_example_table :
    predict_disease [("fever", ["flu", "malaria"]), ("cough", ["flu", "cold"])]
        ["fever", "cough"] 3 = [("flu", 100), ("malaria", 50), ("cold", 50)] ∧
      predict_disease [("fever", ["flu", "malaria"]), ("cough", ["flu", "cold"])]
        ["cough", "fever"] 3 = [("flu", 100), ("cold", 50), ("malaria", 50)] := by
  constructor
  · decide
  · decide

/-- C5 counterexample: called with the negative `top_n = -1`,
`predict_disease` does not raise an invalid-argument error: every
operation in its body is total, and on the table `fever → flu` with input
`["fever"]` it returns the normal value `[]` (the Python slice
`results[:-1]` drops the last entry of the single-entry ranking). -/
theorem C5_counterexample :
    predict_disease [("fever", ["flu"])] ["fever"] (-1) = [] := by
  decide

/-- C5 (amended): `score_diseases` never raises for any input — empty
symptom sets, unknown symptoms and no-match inputs give an empty or
truncated normal result, and a negative `top_n` does not raise either: the
result is always a sub-list of the full ranking, and for negative `top_n`
it is the ranking with the last `|top_n|` entries dropped. -/
theorem C5_amended_total (symptom_disease_map : List (String × List String))
    (symptoms : List String) (top_n : ℤ) :
    (predict_disease symptom_disease_map symptoms top_n).Sublist
        (rankedResults symptom_disease_map symptoms) ∧
      (top_n < 0 →
        predict_disease symptom_disease_map symptoms top_n =
          (rankedResults symptom_disease_map symptoms).take
            ((rankedResults symptom_disease_map symptoms).length - (-top_n).toNat)) := by
  constructor
  · unfold predict_disease
    split
    · exact List.nil_sublist _
    · unfold pyTake
      split
      · exact List.take_sublist _ _
      · exact List.take_sublist _ _
  · intro hn
    unfold predict_disease
    split
    · rename_i hempty
      unfold rankedResults
      rw [hempty]
      simp [scoreResults]
    · unfold pyTake
      rw [if_neg (by omega)]

/-- Witness for the amended C5 at `top_n = -2`. -/
theorem C5_amended_witness :
    (predict_disease [("fever", ["flu"])] ["fever"] (-2)).Sublist
        (rankedResults [("fever", ["flu"])] ["fever"]) ∧
      predict_disease [("fever", ["flu"])] ["fever"] (-2) =
        (rankedResults [("fever", ["flu"])] ["fever"]).take
          ((rankedResults [("fever", ["flu"])] ["fever"]).length - (-(-2 : ℤ)).toNat) :=
  ⟨(C5_amended_total [("fever", ["flu"])] ["fever"] (-2)).1,
   (C5_amended_total [("fever", ["flu"])] ["fever"] (-2)).2 (by decide)⟩

/-- C4 counterexample: the Symptom Extractor (`preprocess_symptoms`) passes
caller-selected symptoms through without vocabulary validation: with
vocabulary `["fever"]`, the selected symptom `"bogus"` appears in the
output though it is outside the vocabulary. -/
theorem C4_counterexample :
    "bogus" ∈ preprocess_symptoms id [] ["fever"] [] ["bogus"] "" ∧
      "bogus" ∉ (["fever"] : List String) := by
  constructor
  · decide
  · decide

/-- C4 (amended): every symptom recognized from free text
(`extract_symptoms_from_text`) belongs to the vocabulary; hence every
element of the `preprocess_symptoms` output is either one of the caller's
selected symptoms (passed through unvalidated) or a vocabulary member. -/
theorem C4_amended_vocabulary_closure (lemmatize : String → String)
    (stop_words all_symptoms : List String)
    (symptom_synonyms : List (String × List String))
    (selected_symptoms : List String) (text : String) :
    (∀ x ∈ extract_symptoms_from_text lemmatize stop_words all_symptoms symptom_synonyms text,
        x ∈ all_symptoms) ∧
      ∀ x ∈ preprocess_symptoms lemmatize stop_words all_symptoms symptom_synonyms
          selected_symptoms text, x ∈ selected_symptoms ∨ x ∈ all_symptoms := by
  have hext : ∀ x ∈ extract_symptoms_from_text lemmatize stop_words all_symptoms
      symptom_synonyms text, x ∈ all_symptoms := by
    intro x hx
    unfold extract_symptoms_from_text at hx
    rw [mem_foldl_addMatch] at hx
    rcases hx with hx | ⟨p, _, hm⟩
    · rw [mem_foldl_addMatch] at hx
      rcases hx with hx | ⟨p, _, hm⟩
      · exact absurd hx (List.not_mem_nil x)
      · exact firstMatch_mem hm
    · exact firstMatch_mem hm
  refine ⟨hext, ?_⟩
  intro x hx
  unfold preprocess_symptoms at hx
  split at hx
  · rcases mem_pyInsertAll.mp hx with h0 | hs
    · exact absurd h0 (List.not_mem_nil x)
    · exact Or.inl hs
  · rcases mem_pyInsertAll.mp hx with hx | hx
    · rcases mem_pyInsertAll.mp hx with h0 | hs
      · exact absurd h0 (List.not_mem_nil x)
      · exact Or.inl hs
    · exact Or.inr (hext x hx)

/-- Witness for the amended C4: `"fever"`, found in the output for selected
`["headache"]` and text `"fever"`, is a selected symptom or in the
vocabulary. -/
theorem C4_amended_witness :
    "fever" ∈ (["headache"] : List String) ∨ "fever" ∈ (["fever"] : List String) :=
  (C4_amended_vocabulary_closure id [] ["fever"] [] ["headache"] "fever").2 "fever" (by decide)

/-- C6 counterexample: synonym matching is not case-insensitive on the
synonym side: with `"Runny nose"` registered as a synonym of
`"rhinorrhea"`, the text `"runny nose"` — equal to the synonym up to case —
does not resolve to the canonical name (the lowercased token sequence is
compared verbatim with the stored synonym string). -/
theorem C6_counterexample :
    "rhinorrhea" ∉ extract_symptoms_from_text id [] ["rhinorrhea"]
        [("rhinorrhea", ["Runny nose"])] "runny nose" := by
  decide

/-- C6 (amended): matching is case-insensitive in the input text (only the
lowercased text matters) and against canonical names (which are lowercased
before comparison), but registered synonyms are compared verbatim against
the lowercased text, so only lowercase-registered synonyms can match: with
`"runny nose"` registered for `"rhinorrhea"`, text of any casing
containing the phrase resolves to the canonical name. -/
theorem C6_amended_matching :
    (∀ (lemmatize : String → String) (stop_words all_symptoms : List String)
        (symptom_synonyms : List (String × List String)) (t t₂ : String),
        strLower t = strLower t₂ →
          extract_symptoms_from_text lemmatize stop_words all_symptoms symptom_synonyms t =
            extract_symptoms_from_text lemmatize stop_words all_symptoms symptom_synonyms t₂) ∧
      extract_symptoms_from_text id [] ["rhinorrhea"] [("rhinorrhea", ["runny nose"])]
          "Runny NOSE" = ["rhinorrhea"] := by
  constructor
  · intro lemmatize stop_words all_symptoms symptom_synonyms t t₂ ht
    unfold extract_symptoms_from_text procWords pyTokens
    rw [ht]
  · decide

/-- Witness for the amended C6: `"A"` and `"a"` lowercase equally, so
extraction treats them identically. -/
theorem C6_amended_witness :
    extract_symptoms_from_text id [] [] [] "A" = extract_symptoms_from_text id [] [] [] "a" :=
  C6_amended_matching.1 id [] [] [] "A" "a" (by decide)

/-- C7: when every token of the free text is a stop word (this covers
empty, blank, punctuation-only and stop-word-only text: no tokens, or all
tokens filtered), `extract_symptoms` returns exactly the set of selected
symptoms, unvalidated; in particular `extract_symptoms([], "") = {}` and
`extract_symptoms(["fever"], "") = {"fever"}`. -/
theorem C7_passthrough (lemmatize : String → String)
    (stop_words all_symptoms : List String)
    (symptom_synonyms : List (String × List String))
    (selected_symptoms : List String) (text : String)
    (h : ∀ w ∈ pyTokens text, w ∈ stop_words) :
    (preprocess_symptoms lemmatize stop_words all_symptoms symptom_synonyms
        selected_symptoms text).toFinset = selected_symptoms.toFinset ∧
      preprocess_symptoms lemmatize stop_words all_symptoms symptom_synonyms [] "" = [] ∧
      (preprocess_symptoms lemmatize stop_words all_symptoms symptom_synonyms
        ["fever"] "").toFinset = {"fever"} := by
  have hbase : ∀ l : List String, (pyInsertAll [] l).toFinset = l.toFinset := by
    intro l
    ext a
    simp [List.mem_toFinset, mem_pyInsertAll]
  have hwords : procWords lemmatize stop_words text = [] := by
    unfold procWords
    have : (pyTokens text).filter (fun w => ¬ w ∈ stop_words) = [] := by
      rw [List.filter_eq_nil_iff]
      intro w hw
      simpa using h w hw
    rw [this]
    rfl
  have hext : extract_symptoms_from_text lemmatize stop_words all_symptoms
      symptom_synonyms text = [] := by
    unfold extract_symptoms_from_text
    rw [hwords]
    rfl
  refine ⟨?_, rfl, ?_⟩
  · unfold preprocess_symptoms
    by_cases htext : text = ""
    · rw [if_pos htext]
      exact hbase selected_symptoms
    · rw [if_neg htext, hext]
      exact hbase selected_symptoms
  · rw [show preprocess_symptoms lemmatize stop_words all_symptoms symptom_synonyms
        ["fever"] "" = ["fever"] from rfl]
    rfl

/-- Witness for C7: text consisting only of stop words, with selected
symptom `"fever"`. -/
theorem C7_witness :
    (preprocess_symptoms id ["the", "and"] [] [] ["fever"] "the and").toFinset =
        (["fever"] : List String).toFinset ∧
      preprocess_symptoms id ["the", "and"] [] [] [] "" = [] ∧
      (preprocess_symptoms id ["the", "and"] [] [] ["fever"] "").toFinset = {"fever"} :=
  C7_passthrough id ["the", "and"] [] [] ["fever"] "the and" (by decide)

/-- C8: both core functions are deterministic — identical inputs give
identical outputs — and neither mutates the shared reference tables: in
this embedding the vocabulary, synonym and association tables are
read-only parameters, matching the Python code, whose only writes target
the call-local `disease_score` dict and `recognized_symptoms` set. -/
theorem C8_deterministic (lemmatize : String → String)
    (stop_words all_symptoms : List String)
    (symptom_synonyms symptom_disease_map : List (String × List String))
    (sel₁ sel₂ : List String) (t₁ t₂ : String) (sy₁ sy₂ : List String) (n₁ n₂ : ℤ)
    (hsel : sel₁ = sel₂) (ht : t₁ = t₂) (hsy : sy₁ = sy₂) (hn : n₁ = n₂) :
    preprocess_symptoms lemmatize stop_words all_symptoms symptom_synonyms sel₁ t₁ =
        preprocess_symptoms lemmatize stop_words all_symptoms symptom_synonyms sel₂ t₂ ∧
      predict_disease symptom_disease_map sy₁ n₁ = predict_disease symptom_disease_map sy₂ n₂ := by
  subst hsel
  subst ht
  subst hsy
  subst hn
  exact ⟨rfl, rfl⟩

/-- Witness for C8 at a concrete repeated call. -/
theorem C8_witness :
    preprocess_symptoms id [] [] [] ["fever"] "" = preprocess_symptoms id [] [] [] ["fever"] "" ∧
      predict_disease [("fever", ["flu"])] ["fever"] 3 =
        predict_disease [("fever", ["flu"])] ["fever"] 3 :=
  C8_deterministic id [] [] [] [("fever", ["flu"])] ["fever"] ["fever"] "" "" ["fever"] ["fever"]
    3 3 rfl rfl rfl rfl

/-- C9: the code's multi-word scan runs over windows of 1–4 filtered
tokens, but each length-1 window is a single token whose first matching
symptom was already added by the single-word pass, so the recognized set
equals that of the spec's algorithm, which scans only windows of 2–4
tokens after the single-word pass. -/
theorem C9_refinement (lemmatize : String → String)
    (stop_words all_symptoms : List String)
    (symptom_synonyms : List (String × List String)) (text : String) (x : String) :
    x ∈ extract_symptoms_from_text lemmatize stop_words all_symptoms symptom_synonyms text ↔
      x ∈ extractSpecAlgorithm lemmatize stop_words all_symptoms symptom_synonyms text := by
  have hwin : ∀ F : String → Prop,
      (∃ p ∈ windowPhrases 1 (procWords lemmatize stop_words text), F p) ↔
        ((∃ p ∈ procWords lemmatize stop_words text, F p) ∨
          ∃ p ∈ windowPhrases 2 (procWords lemmatize stop_words text), F p) := by
    intro F
    constructor
    · rintro ⟨p, hp, hF⟩
      rcases mem_windowPhrases_one.mp hp with hm | hm
      · exact Or.inl ⟨p, hm, hF⟩
      · exact Or.inr ⟨p, hm, hF⟩
    · rintro (⟨p, hp, hF⟩ | ⟨p, hp, hF⟩)
      · exact ⟨p, mem_windowPhrases_one.mpr (Or.inl hp), hF⟩
      · exact ⟨p, mem_windowPhrases_one.mpr (Or.inr hp), hF⟩
  unfold extract_symptoms_from_text extractSpecAlgorithm
  simp only [mem_foldl_addMatch]
  rw [hwin]
  constructor
  · rintro ((h | h) | (h | h))
    exacts [Or.inl (Or.inl h), Or.inl (Or.inr h), Or.inl (Or.inr h), Or.inr h]
  · rintro ((h | h) | h)
    exacts [Or.inl (Or.inl h), Or.inl (Or.inr h), Or.inr (Or.inr h)]

/-- Keys-distinct association-list lookup misses exactly the absent keys. -/
theorem dictGet_eq_none_iff {α : Type} {d : List (String × α)} {k : String} :
    dictGet d k = none ↔ k ∉ d.map Prod.fst := by
  induction d with
  | nil => simp [dictGet]
  | cons a t ih =>
    obtain ⟨k₀, v⟩ := a
    simp only [dictGet, List.map_cons, List.mem_cons]
    by_cases h : k₀ = k
    · subst h
      simp
    · rw [if_neg h, ih]
      have : ¬ k = k₀ := fun hc => h hc.symm
      simp [this]

/-- Keys-distinct association-list lookup returns the stored value. -/
theorem dictGet_eq_some_of_mem {α : Type} {d : List (String × α)} {k : String} {v : α}
    (hnodup : (d.map Prod.fst).Nodup) (h : (k, v) ∈ d) : dictGet d k = some v := by
  induction d with
  | nil => cases h
  | cons a t ih =>
    obtain ⟨k₀, v₀⟩ := a
    rw [List.map_cons, List.nodup_cons] at hnodup
    rcases List.mem_cons.mp h with heq | hm
    · obtain ⟨rfl, rfl⟩ := Prod.mk.injEq .. ▸ heq.symm
      simp [dictGet]
    · have hne : k₀ ≠ k := by
        rintro rfl
        exact hnodup.1 (List.mem_map.mpr ⟨(k₀, v), hm, rfl⟩)
      rw [show dictGet ((k₀, v₀) :: t) k = dictGet t k from by simp [dictGet, hne]]
      exact ih hnodup.2 hm

/-- C10: for a disease-info table with distinct names, `get_disease_info`
returns `None` (not an exception — the embedding is a total function into
`Option`) exactly for the names absent from the table, and the stored info
for every present name. -/
theorem C10_disease_info_lookup {α : Type} (diseases_data : List (String × α))
    (disease_name : String) (hnodup : (diseases_data.map Prod.fst).Nodup) :
    (get_disease_info diseases_data disease_name = none ↔
        disease_name ∉ diseases_data.map Prod.fst) ∧
      ∀ info, (disease_name, info) ∈ diseases_data →
        get_disease_info diseases_data disease_name = some info :=
  ⟨dictGet_eq_none_iff, fun _ h => dictGet_eq_some_of_mem hnodup h⟩

/-- Witness for C10 on a one-entry table and an absent name. -/
theorem C10_witness :
    (get_disease_info [("flu", 1)] "cold" = none ↔
        "cold" ∉ ([("flu", 1)] : List (String × Nat)).map Prod.fst) ∧
      ∀ info, ("cold", info) ∈ ([("flu", 1)] : List (String × Nat)) →
        get_disease_info [("flu", 1)] "cold" = some info :=
  C10_disease_info_lookup [("flu", 1)] "cold" (by decide)

end DoctorAi
